import Mathlib

/-!
Shallow embedding of the m5_forecasting pipeline
(`src/m5_forecasting/data_processor.py` and `src/m5_forecasting/utils.py`)
and proofs about its train/test splitter, calendar preparation, reshaping,
release filtering, and validation checks.

Tables are embedded as lists of records; pandas missing values (NaN/NaT) are
embedded as `Option.none`; operations that raise Python exceptions return
`Except`.
-/

/-! ### Lexicographic string order (pandas sorts groupby keys with Python's
string `<`, i.e. lexicographically by code point).  We use an executable
comparison because `String`'s library order does not kernel-reduce. -/

/-- Lexicographic comparison of character lists by code point. -/
def strListLe : List Char → List Char → Bool
  | [], _ => true
  | _ :: _, [] => false
  | a :: as, b :: bs =>
    if a.val < b.val then true
    else if b.val < a.val then false
    else strListLe as bs

/-- Lexicographic `≤` on strings, as Python compares `str` keys. -/
def strLe (a b : String) : Bool := strListLe a.data b.data

/-- Insert a string into a sorted list of strings. -/
def insertLe (x : String) : List String → List String
  | [] => [x]
  | y :: ys => if strLe x y then x :: y :: ys else y :: insertLe x ys

/-- Insertion sort for strings: the key order used by `DataFrame.groupby`,
which sorts group keys ascending. -/
def sortKeys (l : List String) : List String := l.foldr insertLe []

/-! ### Splitter (`DataProcessor.split_data`, data_processor.py lines 151-171)

A row of the finalized table.  Only the columns that `split_data` and the
claims consult are carried: the series key `unique_id`, the date `ds`
(as a day ordinal), and the observed value `y` standing for the remaining
payload columns. -/

structure FinalRow where
  unique_id : String
  ds : Nat
  y : Int
deriving DecidableEq, Repr

/-- Python list slice `l[:k]` (a negative `k` counts from the end; `l[:-0]`
is `l[:0]`, the empty list). -/
def pySliceTo {α : Type} (l : List α) (k : Int) : List α :=
  if 0 ≤ k then l.take k.toNat else l.take (l.length - (-k).toNat)

/-- Python list slice `l[k:]` (a negative `k` counts from the end; `l[-0:]`
is `l[0:]`, the whole list). -/
def pySliceFrom {α : Type} (l : List α) (k : Int) : List α :=
  if 0 ≤ k then l.drop k.toNat else l.drop (l.length - (-k).toNat)

/-- `self.processor.groupby("unique_id")`: the rows of one group, in the
table's existing row order (pandas `groupby` preserves intra-group order
and does not sort by date). -/
def groupRows (tbl : List FinalRow) (uid : String) : List FinalRow :=
  tbl.filter (fun r => r.unique_id == uid)

/-- The groupby keys: the distinct `unique_id` values, sorted ascending
(pandas `groupby` sorts keys). -/
def groupKeys (tbl : List FinalRow) : List String :=
  sortKeys ((tbl.map (·.unique_id)).dedup)

/-- Loop body for `train_list`: `group.iloc[:-horizon]` when
`len(group) > horizon`, else the whole group. -/
def trainPart (g : List FinalRow) (horizon : Nat) : List FinalRow :=
  if horizon < g.length then pySliceTo g (-(horizon : Int)) else g

/-- The test rows a group contributes: `group.iloc[-horizon:]` when
`len(group) > horizon`, else nothing. -/
def testPart (g : List FinalRow) (horizon : Nat) : List FinalRow :=
  if horizon < g.length then pySliceFrom g (-(horizon : Int)) else []

/-- The `train_list` built by the loop in `split_data`: one entry per group. -/
def trainFrames (tbl : List FinalRow) (horizon : Nat) : List (List FinalRow) :=
  (groupKeys tbl).map (fun k => trainPart (groupRows tbl k) horizon)

/-- The `test_list` built by the loop in `split_data`: an entry is appended
only when `len(group) > horizon`. -/
def testFrames (tbl : List FinalRow) (horizon : Nat) : List (List FinalRow) :=
  (groupKeys tbl).filterMap (fun k =>
    let g := groupRows tbl k
    if horizon < g.length then some (pySliceFrom g (-(horizon : Int))) else none)

/-- Errors raised by the embedded pandas/Python operations. -/
inductive PandasError where
  | emptyConcat
deriving DecidableEq, Repr

/-- `pd.concat(frames)`: raises `ValueError("No objects to concatenate")`
on an empty list of frames. -/
def pdConcat (frames : List (List FinalRow)) : Except PandasError (List FinalRow) :=
  if frames.isEmpty then .error .emptyConcat else .ok frames.flatten

/-- `DataProcessor.split_data`: concatenates the per-group train
contributions, then the per-group test contributions (in that order, as the
source concatenates `train_list` on line 166 before `test_list` on
line 167). -/
def split_data (tbl : List FinalRow) (horizon : Nat) :
    Except PandasError (List FinalRow × List FinalRow) :=
  match pdConcat (trainFrames tbl horizon), pdConcat (testFrames tbl horizon) with
  | .error e, _ => .error e
  | .ok _, .error e => .error e
  | .ok train_df, .ok test_df => .ok (train_df, test_df)

/-! ### Date-gap check (`DataChecker.gaps_in_date_check`, utils.py 44-74)

A row of a table handed to the checker; only the required columns
`unique_id` and `ds` are consulted, with `ds` a day ordinal so that
`pd.date_range(lo, hi, freq="D")` is the integer range `[lo, hi]`. -/

structure GRow where
  unique_id : String
  ds : Nat
deriving DecidableEq, Repr

/-- `df["unique_id"].unique()`: the distinct series keys of the table. -/
def uniqueIdsOf (tbl : List GRow) : List String :=
  (tbl.map (·.unique_id)).dedup

/-- `df["ds"].min()` over the table (meaningful for nonempty tables). -/
def dsMin (tbl : List GRow) : Nat := ((tbl.map (·.ds)).min?).getD 0

/-- `df["ds"].max()` over the table (meaningful for nonempty tables). -/
def dsMax (tbl : List GRow) : Nat := ((tbl.map (·.ds)).max?).getD 0

/-- `pd.date_range(df["ds"].min(), df["ds"].max(), freq="D")`: every date
from the GLOBAL minimum to the GLOBAL maximum of the whole table. -/
def dateRange (tbl : List GRow) : List Nat :=
  List.range' (dsMin tbl) (dsMax tbl - dsMin tbl + 1)

/-- Whether the table has a row for the given series and date (the
left-merge indicator `_merge == "both"` for that combination). -/
def hasRow (tbl : List GRow) (uid : String) (d : Nat) : Bool :=
  tbl.any (fun r => r.unique_id == uid && r.ds == d)

/-- The dates of the cross product `unique_ids × all_dates` that have no
matching row for `uid` (`_merge == "left_only"`), in ascending order. -/
def missingFor (tbl : List GRow) (uid : String) : List Nat :=
  (dateRange tbl).filter (fun d => !(hasRow tbl uid d))

/-- `missing.groupby("unique_id")["ds"].apply(list)`: one entry per series
that has at least one missing date, keys sorted ascending, dates
ascending. -/
def gapEntries (tbl : List GRow) : List (String × List Nat) :=
  ((sortKeys (uniqueIdsOf tbl)).map (fun u => (u, missingFor tbl u))).filter
    (fun p => !(p.2.isEmpty))

/-- Structured outcome of the date-gap check: either the no-gaps message or
the per-series lists of missing dates. -/
inductive GapResult where
  | noGaps
  | report (entries : List (String × List Nat))
deriving DecidableEq, Repr

/-- `DataChecker.gaps_in_date_check`: reports the per-series missing dates,
or the no-gaps message when `missing` is empty. -/
def gaps_in_date_check (tbl : List GRow) : GapResult :=
  if gapEntries tbl = [] then .noGaps else .report (gapEntries tbl)

/-- The list of missing dates the check's output associates with a series
(empty when the series does not appear in the report). -/
def reportedMissing (tbl : List GRow) (uid : String) : List Nat :=
  match gaps_in_date_check tbl with
  | .noGaps => []
  | .report entries =>
      ((entries.find? (fun p => p.1 == uid)).map Prod.snd).getD []

/-! ### Calendar preparation (`DataProcessor.prepare_calendar`,
data_processor.py lines 85-97) -/

/-- A raw calendar row.  Event columns are nullable; `prepare_calendar`
replaces their nulls with the sentinel `0` (`fillna(0)`), so after filling,
a cell compares `!= 0` exactly when it was originally non-null (event names
and types are non-empty strings, never the number 0). -/
structure CalRow where
  date : Nat
  wm_yr_wk : Nat
  event_name_1 : Option String
  event_type_1 : Option String
  event_name_2 : Option String
  event_type_2 : Option String
deriving DecidableEq, Repr

/-- The derived `num_events` of one calendar row: `0` by default, `2` where
`event_type_2 != 0`, `1` where `event_type_2 == 0` and `event_type_1 != 0`
(the two masked assignments on lines 93-94). -/
def num_events (c : CalRow) : Nat :=
  if c.event_type_2.isSome then 2
  else if c.event_type_1.isSome then 1
  else 0

/-- A calendar row after `prepare_calendar`: the derived day-index key and
event count, alongside the original row. -/
structure CalPrepared where
  ds_id : String
  num_events : Nat
  row : CalRow
deriving DecidableEq, Repr

/-- `DataProcessor.prepare_calendar` restricted to the columns it derives:
`ds_id = "d_" + str(index + 1)` by row position, plus `num_events`. -/
def prepare_calendar (cal : List CalRow) : List CalPrepared :=
  cal.enum.map (fun ic =>
    { ds_id := "d_" ++ toString (ic.1 + 1), num_events := num_events ic.2, row := ic.2 })

/-! ### Reshaper (`DataProcessor.process_data` steps 2-3,
data_processor.py lines 47-61) -/

/-- A row of the wide sales table: the identifying attributes plus the
day-column values, read off by column name. -/
structure WideSalesRow where
  item_id : String
  store_id : String
  dept_id : String
  cat_id : String
  state_id : String
  dayVal : String → Int

/-- A row of the long (melted) sales table. -/
structure LongSalesRow where
  store_id : String
  item_id : String
  dept_id : String
  cat_id : String
  state_id : String
  unique_id : String
  ds_id : String
  y : Int

/-- `pd.melt(sales_data, id_vars=..., value_vars=date_columns, var_name="ds_id",
value_name="y")`: for each day column (in order), one row per input row,
carrying the id columns and the derived `unique_id = item_id + "_" + store_id`. -/
def melt (rows : List WideSalesRow) (date_columns : List String) : List LongSalesRow :=
  date_columns.flatMap (fun c =>
    rows.map (fun r =>
      { store_id := r.store_id, item_id := r.item_id, dept_id := r.dept_id,
        cat_id := r.cat_id, state_id := r.state_id,
        unique_id := r.item_id ++ "_" ++ r.store_id, ds_id := c, y := r.dayVal c }))

/-- `self.original_row_count = self.sales_data.shape[0]`, captured on
line 60, immediately after the melt and before any merge or filter. -/
def original_row_count (rows : List WideSalesRow) (date_columns : List String) : Nat :=
  (melt rows date_columns).length

/-! ### Release filter (`DataProcessor.filter_before_release`,
data_processor.py lines 118-126) -/

/-- A row of the sell-prices table (its columns are non-null). -/
structure SellPriceRow where
  store_id : String
  item_id : String
  wm_yr_wk : Nat
  sell_price : ℚ
deriving DecidableEq, Repr

/-- A row of the enriched sales table as `filter_before_release` sees it:
the series key, the price-week key attached by the calendar left-merge
(`none` when the day had no calendar match), and `y` standing for the
remaining payload columns. -/
structure EnrichedRow where
  unique_id : String
  wm_yr_wk : Option Nat
  y : Int
deriving DecidableEq, Repr

/-- `sell_prices.groupby(["store_id", "item_id"])["wm_yr_wk"].min()` with
`unique_id = item_id + "_" + store_id`: one `(unique_id, release)` row per
observed (store, item) pair. -/
def release_df (sell_prices : List SellPriceRow) : List (String × Option Nat) :=
  ((sell_prices.map (fun p => (p.store_id, p.item_id))).dedup).map (fun si =>
    (si.2 ++ "_" ++ si.1,
      ((sell_prices.filter (fun p => p.store_id == si.1 && p.item_id == si.2)).map
        (·.wm_yr_wk)).min?))

/-- `sales_data.merge(release_df, on="unique_id", how="left")`: each sales
row paired with every matching release row, or with a null release when no
release row matches its `unique_id`. -/
def mergeRelease (sales : List EnrichedRow) (rel : List (String × Option Nat)) :
    List (EnrichedRow × Option Nat) :=
  sales.flatMap (fun r =>
    if (rel.filter (fun e => e.1 == r.unique_id)).isEmpty then [(r, none)]
    else (rel.filter (fun e => e.1 == r.unique_id)).map (fun e => (r, e.2)))

/-- The pandas comparison `a >= b` on nullable values: any comparison
involving a missing value (NaN) is `False`. -/
def naGe (a b : Option Nat) : Bool :=
  match a, b with
  | some x, some y => y ≤ x
  | _, _ => false

/-- `DataProcessor.filter_before_release`: left-merge the per-series release
week onto the sales table and keep only rows with
`wm_yr_wk >= release`. -/
def filter_before_release (sell_prices : List SellPriceRow) (sales : List EnrichedRow) :
    List EnrichedRow :=
  ((mergeRelease sales (release_df sell_prices)).filter
    (fun pr => naGe pr.1.wm_yr_wk pr.2)).map Prod.fst

/-! ### Row-drop summary (`DataChecker.not_sales_row_drop_summary_check`,
utils.py lines 11-25) -/

/-- Errors the check can raise: Python's `ZeroDivisionError` from computing
the percentage, or the explicit `ValueError` of the invariant guard. -/
inductive CheckError where
  | divisionByZero
  | valueError
deriving DecidableEq, Repr

/-- The structured content of the summary message: original, filtered and
dropped row counts and the drop percentage. -/
structure DropSummary where
  original_row_count : Nat
  filtered_row_count : Nat
  dropped_row_count : Int
  drop_percentage : ℚ
deriving DecidableEq, Repr

/-- `DataChecker.not_sales_row_drop_summary_check`: computes
`dropped = original - filtered` and `drop_percentage = dropped/original*100`
(line 14, raising `ZeroDivisionError` when `original = 0`) BEFORE the guard
`original < filtered` (line 16) that raises `ValueError`; otherwise returns
the summary. -/
def not_sales_row_drop_summary_check (original_row_count filtered_row_count : Nat) :
    Except CheckError DropSummary :=
  if original_row_count = 0 then .error .divisionByZero
  else if original_row_count < filtered_row_count then .error .valueError
  else
    .ok ⟨original_row_count, filtered_row_count,
      (original_row_count : Int) - (filtered_row_count : Int),
      ((((original_row_count : Int) - (filtered_row_count : Int) : Int) : ℚ)
          / (original_row_count : ℚ)) * 100⟩

/-! ## Helper lemmas -/

theorem insertLe_perm (x : String) (l : List String) : (insertLe x l).Perm (x :: l) := by
  induction l with
  | nil => exact List.Perm.refl _
  | cons y ys ih =>
    unfold insertLe
    by_cases h : strLe x y
    · rw [if_pos h]
    · rw [if_neg h]
      exact ((ih.cons y).trans (List.Perm.swap x y ys))

theorem sortKeys_perm (l : List String) : (sortKeys l).Perm l := by
  induction l with
  | nil => exact List.Perm.refl _
  | cons x xs ih =>
    exact (insertLe_perm x (sortKeys xs)).trans (ih.cons x)

theorem mem_sortKeys {a : String} {l : List String} : a ∈ sortKeys l ↔ a ∈ l :=
  (sortKeys_perm l).mem_iff

theorem nodup_sortKeys {l : List String} (h : l.Nodup) : (sortKeys l).Nodup :=
  ((sortKeys_perm l).nodup_iff).mpr h

theorem groupKeys_nodup (tbl : List FinalRow) : (groupKeys tbl).Nodup :=
  nodup_sortKeys (List.nodup_dedup _)

theorem mem_groupKeys {tbl : List FinalRow} {uid : String} :
    uid ∈ groupKeys tbl ↔ ∃ r ∈ tbl, r.unique_id = uid := by
  unfold groupKeys
  rw [mem_sortKeys, List.mem_dedup, List.mem_map]

theorem mem_groupRows {tbl : List FinalRow} {uid : String} {r : FinalRow} :
    r ∈ groupRows tbl uid ↔ r ∈ tbl ∧ r.unique_id = uid := by
  unfold groupRows
  rw [List.mem_filter, beq_iff_eq]

theorem groupRows_eq_nil {tbl : List FinalRow} {uid : String}
    (h : uid ∉ groupKeys tbl) : groupRows tbl uid = [] := by
  unfold groupRows
  rw [List.filter_eq_nil_iff]
  intro r hr hbeq
  exact h (mem_groupKeys.mpr ⟨r, hr, beq_iff_eq.mp hbeq⟩)

theorem trainPart_append_testPart (g : List FinalRow) (horizon : Nat) :
    trainPart g horizon ++ testPart g horizon = g := by
  unfold trainPart testPart pySliceTo pySliceFrom
  by_cases hlen : horizon < g.length
  · rw [if_pos hlen, if_pos hlen]
    by_cases h0 : (0 : Int) ≤ -(horizon : Int)
    · have hz : horizon = 0 := by omega
      subst hz
      simp
    · rw [if_neg h0, if_neg h0]
      have hh : ((- -(horizon : Int)).toNat) = horizon := by omega
      rw [hh]
      exact List.take_append_drop _ _
  · rw [if_neg hlen, if_neg hlen, List.append_nil]

theorem mem_of_mem_trainPart {g : List FinalRow} {horizon : Nat} {x : FinalRow}
    (h : x ∈ trainPart g horizon) : x ∈ g := by
  rw [← trainPart_append_testPart g horizon]
  exact List.mem_append_left _ h

theorem mem_of_mem_testPart {g : List FinalRow} {horizon : Nat} {x : FinalRow}
    (h : x ∈ testPart g horizon) : x ∈ g := by
  rw [← trainPart_append_testPart g horizon]
  exact List.mem_append_right _ h

theorem trainPart_nil (horizon : Nat) : trainPart [] horizon = [] := by
  unfold trainPart
  rw [if_neg (by simp)]

theorem testPart_nil (horizon : Nat) : testPart [] horizon = [] := by
  unfold testPart
  rw [if_neg (by simp)]

theorem pdConcat_ok {frames : List (List FinalRow)} {v : List FinalRow}
    (h : pdConcat frames = .ok v) : v = frames.flatten := by
  unfold pdConcat at h
  by_cases he : frames.isEmpty
  · rw [if_pos he] at h
    exact absurd h (by simp)
  · rw [if_neg he] at h
    exact (Except.ok.injEq _ _ ▸ h).symm

theorem split_data_ok {tbl tr te : List FinalRow} {horizon : Nat}
    (hs : split_data tbl horizon = .ok (tr, te)) :
    tr = (trainFrames tbl horizon).flatten ∧ te = (testFrames tbl horizon).flatten := by
  unfold split_data at hs
  rcases h1 : pdConcat (trainFrames tbl horizon) with e1 | a <;> rw [h1] at hs
  · exact absurd hs (by simp)
  · rcases h2 : pdConcat (testFrames tbl horizon) with e2 | b <;> rw [h2] at hs
    · exact absurd hs (by simp)
    · simp only [Except.ok.injEq, Prod.mk.injEq] at hs
      obtain ⟨rfl, rfl⟩ := hs
      exact ⟨pdConcat_ok h1, pdConcat_ok h2⟩

theorem flatten_map_eq_single {α : Type} (ks : List String) (uid : String)
    (f : String → List α) (hnd : ks.Nodup) (hf : ∀ k ∈ ks, k ≠ uid → f k = []) :
    (ks.map f).flatten = if uid ∈ ks then f uid else [] := by
  induction ks with
  | nil => simp
  | cons k ks ih =>
    rw [List.map_cons, List.flatten_cons]
    rcases List.nodup_cons.mp hnd with ⟨hk, hnd'⟩
    have hf' : ∀ k' ∈ ks, k' ≠ uid → f k' = [] :=
      fun k' hk' => hf k' (List.mem_cons_of_mem _ hk')
    by_cases hku : k = uid
    · subst hku
      rw [if_pos (List.mem_cons_self _ _), ih hnd' hf', if_neg hk, List.append_nil]
    · rw [hf k (List.mem_cons_self _ _) hku, List.nil_append, ih hnd' hf']
      by_cases hu : uid ∈ ks
      · rw [if_pos hu, if_pos (List.mem_cons_of_mem _ hu)]
      · rw [if_neg hu, if_neg (by
          intro hmem
          rcases List.mem_cons.mp hmem with h | h
          · exact hku h.symm
          · exact hu h)]

theorem testFrames_flatten (tbl : List FinalRow) (horizon : Nat) :
    (testFrames tbl horizon).flatten
      = ((groupKeys tbl).map (fun k => testPart (groupRows tbl k) horizon)).flatten := by
  unfold testFrames
  induction groupKeys tbl with
  | nil => rfl
  | cons k ks ih =>
    by_cases hc : horizon < (groupRows tbl k).length
    · simp only [List.filterMap_cons, List.map_cons, List.flatten_cons]
      simp [hc, testPart, ih]
    · simp only [List.filterMap_cons, List.map_cons, List.flatten_cons]
      simp [hc, testPart, ih]

theorem groupRows_flatten_part (tbl : List FinalRow) (horizon : Nat) (uid : String)
    (part : List FinalRow → Nat → List FinalRow)
    (hmem : ∀ (g : List FinalRow) (x : FinalRow), x ∈ part g horizon → x ∈ g)
    (hnil : part [] horizon = []) :
    groupRows (((groupKeys tbl).map (fun k => part (groupRows tbl k) horizon)).flatten) uid
      = part (groupRows tbl uid) horizon := by
  show (((groupKeys tbl).map (fun k => part (groupRows tbl k) horizon)).flatten).filter
      (fun r => r.unique_id == uid) = part (groupRows tbl uid) horizon
  rw [List.filter_flatten, List.map_map]
  show ((groupKeys tbl).map (fun k =>
      List.filter (fun r => r.unique_id == uid) (part (groupRows tbl k) horizon))).flatten
    = part (groupRows tbl uid) horizon
  rw [flatten_map_eq_single (groupKeys tbl) uid
      (fun k => List.filter (fun r => r.unique_id == uid) (part (groupRows tbl k) horizon))
      (groupKeys_nodup tbl)
      (by
        intro k _ hku
        rw [List.filter_eq_nil_iff]
        intro x hx hbeq
        have hxk : x.unique_id = k := (mem_groupRows.mp (hmem _ _ hx)).2
        exact hku (hxk ▸ beq_iff_eq.mp hbeq))]
  by_cases hu : uid ∈ groupKeys tbl
  · rw [if_pos hu, List.filter_eq_self.mpr]
    intro x hx
    exact beq_iff_eq.mpr (mem_groupRows.mp (hmem _ _ hx)).2
  · rw [if_neg hu, groupRows_eq_nil hu, hnil]

theorem groupRows_split {tbl tr te : List FinalRow} {horizon : Nat}
    (hs : split_data tbl horizon = .ok (tr, te)) (uid : String) :
    groupRows tr uid = trainPart (groupRows tbl uid) horizon ∧
      groupRows te uid = testPart (groupRows tbl uid) horizon := by
  obtain ⟨htr, hte⟩ := split_data_ok hs
  constructor
  · rw [htr]
    exact groupRows_flatten_part tbl horizon uid trainPart
      (fun g x => mem_of_mem_trainPart) (trainPart_nil horizon)
  · rw [hte, testFrames_flatten]
    exact groupRows_flatten_part tbl horizon uid testPart
      (fun g x => mem_of_mem_testPart) (testPart_nil horizon)

/-! ## Splitter claims -/

/-- C1: the spec says that for horizon = 0 every series' test contribution is
empty and all rows go to training.  The code does the opposite: with
`horizon = 0`, `group.iloc[:-0]` is `group.iloc[:0]` (empty) and
`group.iloc[-0:]` is `group.iloc[0:]` (the whole group), so the training
table is empty and every row of every series lands in the test table.  This
theorem evaluates the embedded code at the failing input: a table with one
series holding one row. -/
theorem C1_behavior :
    split_data [⟨"a", 1, 0⟩] 0 = .ok ([], [⟨"a", 1, 0⟩]) := by rfl

/-- C4 counterexample: `split_data` does not order groups by date — pandas
`groupby` keeps each group's rows in the table's existing order.  On a table
whose single series is stored in descending date order, with horizon 1, the
test partition receives the row with the EARLIER date, refuting the claimed
trailing-horizon property for tables in arbitrary row order. -/
theorem C4_counterexample :
    split_data [⟨"a", 2, 0⟩, ⟨"a", 1, 0⟩] 1 = .ok ([⟨"a", 2, 0⟩], [⟨"a", 1, 0⟩]) ∧
      ¬ (∀ a ∈ groupRows [⟨"a", 2, 0⟩] "a", ∀ b ∈ groupRows [⟨"a", 1, 0⟩] "a",
          a.ds ≤ b.ds) :=
  ⟨by rfl, by decide⟩

/-- C4 (amended): `split_data` takes the last `horizon` rows of each
`unique_id` group in the table's existing row order, without sorting by
date; when a series' rows already appear in ascending date order (as the
pipeline produces them), every row of that series in the test table has a
date greater than or equal to every date of that series in the training
table. -/
theorem C4_amended {tbl tr te : List FinalRow} {horizon : Nat} (uid : String)
    (hs : split_data tbl horizon = .ok (tr, te))
    (hsorted : (groupRows tbl uid).Pairwise (fun a b => a.ds ≤ b.ds)) :
    ∀ a ∈ groupRows tr uid, ∀ b ∈ groupRows te uid, a.ds ≤ b.ds := by
  obtain ⟨htr, hte⟩ := groupRows_split hs uid
  rw [htr, hte]
  have hsp := trainPart_append_testPart (groupRows tbl uid) horizon
  rw [← hsp] at hsorted
  exact (List.pairwise_append.mp hsorted).2.2

/-- Witness for C4 (amended) at a concrete sorted single-series table with
horizon 1. -/
theorem C4_witness :
    split_data [⟨"a", 1, 7⟩, ⟨"a", 2, 8⟩] 1 = .ok ([⟨"a", 1, 7⟩], [⟨"a", 2, 8⟩]) ∧
      ((groupRows [⟨"a", 1, 7⟩, ⟨"a", 2, 8⟩] "a").Pairwise (fun a b => a.ds ≤ b.ds)) ∧
      (∀ a ∈ groupRows [⟨"a", 1, 7⟩] "a", ∀ b ∈ groupRows [⟨"a", 2, 8⟩] "a", a.ds ≤ b.ds) :=
  ⟨by rfl, by decide,
    @C4_amended [⟨"a", 1, 7⟩, ⟨"a", 2, 8⟩] [⟨"a", 1, 7⟩] [⟨"a", 2, 8⟩] 1 "a"
      (by rfl) (by decide)⟩

/-- C5: whenever `split_data` succeeds, for each `unique_id` the rows of
that series in the training table followed by its rows in the test table
are exactly that series' rows in the finalized table — an equality of
ordered lists, so in particular no row is duplicated and none is lost.
This holds for every horizon, including the buggy horizon = 0 case, because
`group.iloc[:-h] ++ group.iloc[-h:]` always reassembles the group. -/
theorem C5_partition {tbl tr te : List FinalRow} {horizon : Nat}
    (hs : split_data tbl horizon = .ok (tr, te)) (uid : String) :
    groupRows tr uid ++ groupRows te uid = groupRows tbl uid := by
  obtain ⟨htr, hte⟩ := groupRows_split hs uid
  rw [htr, hte, trainPart_append_testPart]

/-- Witness for C5 at a concrete two-row series with horizon 1. -/
theorem C5_witness :
    split_data [⟨"a", 1, 5⟩, ⟨"a", 2, 6⟩] 1 = .ok ([⟨"a", 1, 5⟩], [⟨"a", 2, 6⟩]) ∧
      groupRows [⟨"a", 1, 5⟩] "a" ++ groupRows [⟨"a", 2, 6⟩] "a"
        = groupRows [⟨"a", 1, 5⟩, ⟨"a", 2, 6⟩] "a" :=
  ⟨by rfl,
    @C5_partition [⟨"a", 1, 5⟩, ⟨"a", 2, 6⟩] [⟨"a", 1, 5⟩] [⟨"a", 2, 6⟩] 1 (by rfl) "a"⟩

/-- C8: when every series is no longer than a positive horizon, no group
appends to `test_list`, so `pd.concat(test_list)` (or, for an empty table,
already `pd.concat(train_list)`) raises `ValueError: No objects to
concatenate`; `split_data` never returns a training table with an empty
test table. -/
theorem C8_empty_concat (tbl : List FinalRow) (horizon : Nat) (hpos : 0 < horizon)
    (hshort : ∀ uid : String, (groupRows tbl uid).length ≤ horizon) :
    split_data tbl horizon = .error .emptyConcat := by
  have htest : testFrames tbl horizon = [] := by
    unfold testFrames
    rw [List.filterMap_eq_nil_iff]
    intro k hk
    exact if_neg (Nat.not_lt.mpr (hshort k))
  unfold split_data
  rw [htest]
  rcases h1 : pdConcat (trainFrames tbl horizon) with e1 | a
  · cases e1
    rfl
  · rfl

/-- Witness for C8: a single one-row series with horizon 1. -/
theorem C8_witness :
    0 < 1 ∧ (∀ uid : String, (groupRows [⟨"a", 1, 0⟩] uid).length ≤ 1) ∧
      split_data [⟨"a", 1, 0⟩] 1 = .error .emptyConcat :=
  ⟨Nat.one_pos, fun uid => List.length_filter_le _ _,
    C8_empty_concat [⟨"a", 1, 0⟩] 1 Nat.one_pos (fun uid => List.length_filter_le _ _)⟩

/-! ## Date-gap check lemmas -/

theorem dsMin_le_dsMax {tbl : List GRow} (hne : tbl ≠ []) : dsMin tbl ≤ dsMax tbl := by
  cases hmin : (tbl.map (·.ds)).min? with
  | none =>
    rw [List.min?_eq_none_iff, List.map_eq_nil_iff] at hmin
    exact absurd hmin hne
  | some a =>
    cases hmax : (tbl.map (·.ds)).max? with
    | none =>
      rw [List.max?_eq_none_iff, List.map_eq_nil_iff] at hmax
      exact absurd hmax hne
    | some b =>
      obtain ⟨hamem, _⟩ := List.min?_eq_some_iff'.mp hmin
      obtain ⟨_, hble⟩ := List.max?_eq_some_iff'.mp hmax
      unfold dsMin dsMax
      rw [hmin, hmax]
      exact hble a hamem

theorem mem_dateRange {tbl : List GRow} (hne : tbl ≠ []) {d : Nat} :
    d ∈ dateRange tbl ↔ dsMin tbl ≤ d ∧ d ≤ dsMax tbl := by
  unfold dateRange
  rw [List.mem_range'_1]
  have h := dsMin_le_dsMax hne
  omega

theorem find?_entries_none (ks : List String) (f : String → List Nat) (uid : String)
    (hu : uid ∉ ks) :
    ((ks.map (fun u => (u, f u))).filter (fun p => !(p.2.isEmpty))).find?
      (fun p => p.1 == uid) = none := by
  rw [List.find?_eq_none]
  intro p hp
  rcases List.mem_filter.mp hp with ⟨hpm, _⟩
  rcases List.mem_map.mp hpm with ⟨u, hum, rfl⟩
  simp only [beq_iff_eq]
  intro h
  exact hu (h ▸ hum)

theorem find?_entries_eq (ks : List String) (f : String → List Nat) (uid : String)
    (hnd : ks.Nodup) (hu : uid ∈ ks) :
    ((((ks.map (fun u => (u, f u))).filter (fun p => !(p.2.isEmpty))).find?
        (fun p => p.1 == uid)).map Prod.snd).getD [] = f uid := by
  induction ks with
  | nil => cases hu
  | cons k ks ih =>
    rcases List.nodup_cons.mp hnd with ⟨hk, hnd'⟩
    rw [List.map_cons, List.filter_cons]
    by_cases hke : (f k).isEmpty = true
    · rw [if_neg (by simp [hke])]
      rcases List.mem_cons.mp hu with rfl | hu'
      · rw [find?_entries_none ks f uid hk]
        simp [List.isEmpty_iff.mp hke]
      · exact ih hnd' hu'
    · rw [if_pos (by simp [hke])]
      rw [List.find?_cons]
      by_cases hku : k = uid
      · subst hku
        simp
      · have hbeq : ((k, f k).1 == uid) = false := by simp [hku]
        rw [hbeq]
        rcases List.mem_cons.mp hu with h | hu'
        · exact absurd h.symm hku
        · exact ih hnd' hu'

theorem reportedMissing_eq {tbl : List GRow} {uid : String}
    (hu : uid ∈ uniqueIdsOf tbl) :
    reportedMissing tbl uid = missingFor tbl uid := by
  unfold reportedMissing gaps_in_date_check
  by_cases hg : gapEntries tbl = []
  · rw [if_pos hg]
    have hnil : missingFor tbl uid = [] := by
      have hmem : (uid, missingFor tbl uid)
          ∈ (sortKeys (uniqueIdsOf tbl)).map (fun u => (u, missingFor tbl u)) :=
        List.mem_map.mpr ⟨uid, mem_sortKeys.mpr hu, rfl⟩
      have hdrop := List.filter_eq_nil_iff.mp hg _ hmem
      simpa using hdrop
    rw [hnil]
  · rw [if_neg hg]
    exact find?_entries_eq (sortKeys (uniqueIdsOf tbl)) (fun u => missingFor tbl u) uid
      (nodup_sortKeys (List.nodup_dedup _)) (mem_sortKeys.mpr hu)

theorem mem_missingFor {tbl : List GRow} (hne : tbl ≠ []) {uid : String} {d : Nat} :
    d ∈ missingFor tbl uid ↔
      dsMin tbl ≤ d ∧ d ≤ dsMax tbl ∧ hasRow tbl uid d = false := by
  unfold missingFor
  rw [List.mem_filter, mem_dateRange hne]
  simp [Bool.not_eq_true', and_assoc]

theorem gapEntries_nil_iff {tbl : List GRow} :
    gapEntries tbl = [] ↔ ∀ u ∈ uniqueIdsOf tbl, missingFor tbl u = [] := by
  unfold gapEntries
  rw [List.filter_eq_nil_iff]
  constructor
  · intro h u hu
    have hmem : (u, missingFor tbl u)
        ∈ (sortKeys (uniqueIdsOf tbl)).map (fun u => (u, missingFor tbl u)) :=
      List.mem_map.mpr ⟨u, mem_sortKeys.mpr hu, rfl⟩
    have := h _ hmem
    simpa using this
  · intro h p hp
    rcases List.mem_map.mp hp with ⟨u, hum, rfl⟩
    simpa using h u (mem_sortKeys.mp hum)

/-! ## Date-gap claims -/

/-- C2 counterexample: the check builds its date range from the GLOBAL
minimum and maximum of the whole table, not per series.  Series "b" covers
only date 2 — its own range is the single day 2 and is unbroken — yet the
check reports dates 1 and 3 for "b" (both outside "b"'s own range) and does
not return the no-gaps message, refuting the claim as stated. -/
theorem C2_counterexample :
    gaps_in_date_check [⟨"a", 1⟩, ⟨"a", 2⟩, ⟨"a", 3⟩, ⟨"b", 2⟩]
        = .report [("b", [1, 3])] ∧
      (∀ r ∈ ([⟨"a", 1⟩, ⟨"a", 2⟩, ⟨"a", 3⟩, ⟨"b", 2⟩] : List GRow),
        r.unique_id = "b" → r.ds = 2) :=
  ⟨by rfl, by decide⟩

/-- C2 (amended): for every nonempty input table with the required columns,
the check reports, for each unique_id occurring in the table, exactly the
calendar dates in the GLOBAL range [min ds, max ds] of the whole table for
which that series has no row, and it returns the no-gaps message iff every
series in the table has a row for every date of that global range. -/
theorem C2_amended (tbl : List GRow) (uid : String) (hne : tbl ≠ [])
    (hu : uid ∈ uniqueIdsOf tbl) :
    (∀ d : Nat, d ∈ reportedMissing tbl uid ↔
        dsMin tbl ≤ d ∧ d ≤ dsMax tbl ∧ hasRow tbl uid d = false) ∧
    (gaps_in_date_check tbl = .noGaps ↔
        ∀ u ∈ uniqueIdsOf tbl, ∀ d : Nat,
          dsMin tbl ≤ d → d ≤ dsMax tbl → hasRow tbl u d = true) := by
  constructor
  · intro d
    rw [reportedMissing_eq hu, mem_missingFor hne]
  · unfold gaps_in_date_check
    constructor
    · intro h
      by_cases hg : gapEntries tbl = []
      · intro u hu' d hd1 hd2
        have hm : missingFor tbl u = [] := (gapEntries_nil_iff.mp hg) u hu'
        by_contra hfalse
        have hd : d ∈ missingFor tbl u := by
          rw [mem_missingFor hne]
          exact ⟨hd1, hd2, by simpa using hfalse⟩
        rw [hm] at hd
        cases hd
      · rw [if_neg hg] at h
        cases h
    · intro h
      have hg : gapEntries tbl = [] := by
        rw [gapEntries_nil_iff]
        intro u hu'
        unfold missingFor
        rw [List.filter_eq_nil_iff]
        intro d hd
        rcases (mem_dateRange hne).mp hd with ⟨h1, h2⟩
        simp [h u hu' d h1 h2]
      rw [if_pos hg]

/-- Witness for C2 (amended): a single series present on dates 1 and 3. -/
theorem C2_witness :
    (([⟨"a", 1⟩, ⟨"a", 3⟩] : List GRow) ≠ []) ∧
      ("a" ∈ uniqueIdsOf [⟨"a", 1⟩, ⟨"a", 3⟩]) ∧
      ((∀ d : Nat, d ∈ reportedMissing [⟨"a", 1⟩, ⟨"a", 3⟩] "a" ↔
          dsMin [⟨"a", 1⟩, ⟨"a", 3⟩] ≤ d ∧ d ≤ dsMax [⟨"a", 1⟩, ⟨"a", 3⟩] ∧
            hasRow [⟨"a", 1⟩, ⟨"a", 3⟩] "a" d = false) ∧
        (gaps_in_date_check [⟨"a", 1⟩, ⟨"a", 3⟩] = .noGaps ↔
          ∀ u ∈ uniqueIdsOf [⟨"a", 1⟩, ⟨"a", 3⟩], ∀ d : Nat,
            dsMin [⟨"a", 1⟩, ⟨"a", 3⟩] ≤ d → d ≤ dsMax [⟨"a", 1⟩, ⟨"a", 3⟩] →
              hasRow [⟨"a", 1⟩, ⟨"a", 3⟩] u d = true)) :=
  ⟨by decide, by decide,
    C2_amended [⟨"a", 1⟩, ⟨"a", 3⟩] "a" (by decide) (by decide)⟩

/-! ## Calendar claims -/

/-- C3 counterexample: `prepare_calendar` assigns `num_events = 2` to any
row whose SECOND event slot is populated, with no check on the first slot.
On a calendar row with `event_type_2` populated but both fields of slot 1
null, the derived `num_events` is 2 although only one event slot is
populated — refuting "num_events equals 2 only when both event slots are
populated". -/
theorem C3_counterexample :
    (prepare_calendar [⟨0, 0, none, none, some "SuperBowl", some "Sporting"⟩]).map
        (·.num_events) = [2] ∧
      (⟨0, 0, none, none, some "SuperBowl", some "Sporting"⟩ : CalRow).event_type_1 = none ∧
      (⟨0, 0, none, none, some "SuperBowl", some "Sporting"⟩ : CalRow).event_name_1 = none :=
  ⟨by decide, by decide, by decide⟩

/-- C3 (amended): after `prepare_calendar` runs, every calendar row's
derived `num_events` is 0, 1 or 2, and it equals 2 exactly when the second
event slot's type field is populated for that date (regardless of the first
slot). -/
theorem C3_amended (cal : List CalRow) (p : CalPrepared)
    (hp : p ∈ prepare_calendar cal) :
    (p.num_events = 0 ∨ p.num_events = 1 ∨ p.num_events = 2) ∧
      (p.num_events = 2 ↔ p.row.event_type_2.isSome = true) := by
  rcases List.mem_map.mp hp with ⟨ic, _, rfl⟩
  dsimp only
  unfold num_events
  by_cases h2 : ic.2.event_type_2.isSome = true
  · simp [h2]
  · by_cases h1 : ic.2.event_type_1.isSome = true
    · simp [h2, h1]
    · simp [h2, h1]

/-- Witness for C3 (amended) at a calendar row with both event slots
populated. -/
theorem C3_witness :
    ((⟨"d_1", 2, ⟨0, 0, some "n1", some "t1", some "n2", some "t2"⟩⟩ : CalPrepared)
        ∈ prepare_calendar [⟨0, 0, some "n1", some "t1", some "n2", some "t2"⟩]) ∧
      (((2 : Nat) = 0 ∨ (2 : Nat) = 1 ∨ (2 : Nat) = 2) ∧
        ((2 : Nat) = 2 ↔ (some "t2" : Option String).isSome = true)) :=
  ⟨by decide,
    C3_amended [⟨0, 0, some "n1", some "t1", some "n2", some "t2"⟩]
      ⟨"d_1", 2, ⟨0, 0, some "n1", some "t1", some "n2", some "t2"⟩⟩ (by decide)⟩

/-! ## Reshaper claim -/

/-- C6: the melt produces exactly (number of input rows) × (number of day
columns) long rows, and `original_row_count` is captured as exactly this
pre-filter count (the assignment on line 60 happens immediately after the
melt, before the calendar/price merges and before the release filter). -/
theorem C6_melt_count (rows : List WideSalesRow) (date_columns : List String) :
    (melt rows date_columns).length = rows.length * date_columns.length ∧
      original_row_count rows date_columns = (melt rows date_columns).length := by
  refine ⟨?_, rfl⟩
  induction date_columns with
  | nil => simp [melt]
  | cons c cs ih =>
    unfold melt at ih ⊢
    rw [List.flatMap_cons, List.length_append, List.length_map, ih, List.length_cons]
    ring

/-! ## Release-filter claim -/

/-- C9: every row surviving `filter_before_release` belongs to a series
with at least one entry in the price table (under the derived key
`item_id + "_" + store_id`) and has a non-null price-week key.
Contrapositive of the claim: a series with no price entry gets a null
release from the left join and every pandas comparison against null is
False, so all its rows are dropped; likewise any row whose own `wm_yr_wk`
is null. -/
theorem C9_release_drop (sell_prices : List SellPriceRow) (sales : List EnrichedRow)
    (r : EnrichedRow) (hr : r ∈ filter_before_release sell_prices sales) :
    (∃ p ∈ sell_prices, p.item_id ++ "_" ++ p.store_id = r.unique_id) ∧
      r.wm_yr_wk ≠ none := by
  rcases List.mem_map.mp hr with ⟨pr, hpr, rfl⟩
  rcases List.mem_filter.mp hpr with ⟨hmerge, hge⟩
  obtain ⟨w, hw⟩ : ∃ w, pr.1.wm_yr_wk = some w := by
    cases h : pr.1.wm_yr_wk with
    | none => rw [h] at hge; cases pr.2 <;> simp [naGe] at hge
    | some w => exact ⟨w, rfl⟩
  obtain ⟨v, hv⟩ : ∃ v, pr.2 = some v := by
    cases h : pr.2 with
    | none =>
      rw [h] at hge
      cases hx : pr.1.wm_yr_wk <;> rw [hx] at hge <;> simp [naGe] at hge
    | some v => exact ⟨v, rfl⟩
  refine ⟨?_, by rw [hw]; exact Option.some_ne_none w⟩
  rcases List.mem_flatMap.mp hmerge with ⟨r0, hr0, hpr0⟩
  by_cases hms : ((release_df sell_prices).filter
      (fun e => e.1 == r0.unique_id)).isEmpty = true
  · rw [if_pos hms] at hpr0
    have hpair : pr = (r0, none) := by simpa using hpr0
    rw [hpair] at hv
    cases hv
  · rw [if_neg hms] at hpr0
    rcases List.mem_map.mp hpr0 with ⟨e, hef, hepr⟩
    rcases List.mem_filter.mp hef with ⟨herel, hekey⟩
    have hpr1 : pr.1 = r0 := by rw [← hepr]
    rcases List.mem_map.mp herel with ⟨si, hsid, hsie⟩
    rcases List.mem_map.mp (List.mem_dedup.mp hsid) with ⟨p, hps, hpsi⟩
    refine ⟨p, hps, ?_⟩
    have he1 : e.1 = si.2 ++ "_" ++ si.1 := by rw [← hsie]
    have hsi : si = (p.store_id, p.item_id) := hpsi.symm
    rw [beq_iff_eq] at hekey
    rw [hpr1, ← hekey, he1, hsi]

/-- Witness for C9: one price entry for series "I_S" and one surviving
sales row of that series. -/
theorem C9_witness :
    ((⟨"I_S", some 6, 3⟩ : EnrichedRow)
        ∈ filter_before_release [⟨"S", "I", 5, 1⟩] [⟨"I_S", some 6, 3⟩]) ∧
      ((∃ p ∈ [(⟨"S", "I", 5, 1⟩ : SellPriceRow)],
          p.item_id ++ "_" ++ p.store_id = "I_S") ∧ (some 6 : Option Nat) ≠ none) :=
  ⟨by decide, C9_release_drop [⟨"S", "I", 5, 1⟩] [⟨"I_S", some 6, 3⟩] ⟨"I_S", some 6, 3⟩ (by decide)⟩

/-! ## Row-drop summary claims -/

/-- C7 counterexample: at `original_row_count = 0`, `filtered_row_count = 0`
the guard condition (filtered greater than original) is false, yet the check
raises `ZeroDivisionError` from the percentage computation on line 14
instead of returning a summary — refuting "otherwise returns a summary". -/
theorem C7_counterexample :
    not_sales_row_drop_summary_check 0 0 = .error .divisionByZero ∧ ¬ (0 < 0) :=
  ⟨by rfl, by decide⟩

/-- C7 (amended): the check raises an error whenever
`filtered_row_count > original_row_count` (a `ZeroDivisionError` when
`original_row_count = 0`, the guard's `ValueError` otherwise), and when
`original_row_count > 0` and `filtered_row_count ≤ original_row_count` it
returns the summary with `dropped = original - filtered` and
`drop percentage = dropped/original*100`; at original 100 / filtered 80 the
witness below evaluates this to dropped 20 and percentage 20. -/
theorem C7_amended (original_row_count filtered_row_count : Nat) :
    (original_row_count < filtered_row_count →
      ∃ e, not_sales_row_drop_summary_check original_row_count filtered_row_count
        = .error e) ∧
    (0 < original_row_count → filtered_row_count ≤ original_row_count →
      not_sales_row_drop_summary_check original_row_count filtered_row_count =
        .ok ⟨original_row_count, filtered_row_count,
          (original_row_count : Int) - (filtered_row_count : Int),
          ((((original_row_count : Int) - (filtered_row_count : Int) : Int) : ℚ)
              / (original_row_count : ℚ)) * 100⟩) := by
  constructor
  · intro hlt
    unfold not_sales_row_drop_summary_check
    by_cases h0 : original_row_count = 0
    · rw [if_pos h0]
      exact ⟨.divisionByZero, rfl⟩
    · rw [if_neg h0, if_pos hlt]
      exact ⟨.valueError, rfl⟩
  · intro hpos hle
    unfold not_sales_row_drop_summary_check
    rw [if_neg (by omega), if_neg (by omega)]

/-- Witness for C7 (amended): original 100, filtered 80 yields dropped 20
and drop percentage 20 (the "20.00%" of the formatted message). -/
theorem C7_witness :
    0 < 100 ∧ (80 : Nat) ≤ 100 ∧
      not_sales_row_drop_summary_check 100 80 = .ok ⟨100, 80, 20, 20⟩ := by
  refine ⟨by norm_num, by norm_num, ?_⟩
  have h := (C7_amended 100 80).2 (by norm_num) (by norm_num)
  rw [h]
  simp only [Except.ok.injEq, DropSummary.mk.injEq]
  norm_num

/-- C10: with `original_row_count = 0` the check always fails with the
division-by-zero error from line 14, for EVERY `filtered_row_count` — in
particular also when `filtered_row_count > 0`, where the later guard would
have raised `ValueError` instead, showing the guard on line 16 is never
reached and no summary is produced for an empty original table. -/
theorem C10_div_by_zero (filtered_row_count : Nat) :
    not_sales_row_drop_summary_check 0 filtered_row_count
      = .error .divisionByZero := rfl
